import Mathlib

/-!
Verification of the bulk-port-checker server (src/server.js).

The file gives a shallow embedding of the server's scan orchestration:

* The HTTP `POST /scan` handler, the WebSocket connection/close/message
  handlers and the async function `processNextPort` are embedded as a
  deterministic step function `step` over an explicit server state
  `SrvState`.  A JavaScript `async` function runs synchronously up to its
  first `await`; each suspension point of `processNextPort` (the
  listener-acknowledgment `await`, the probe `await`, the `setTimeout`
  before the next iteration) is represented by a pending `OrcTask`.  The
  environment (HTTP client, WebSocket peer, network, event loop) chooses
  a list of `Action`s; `run` folds `step` over it and collects every
  message transmitted on a WebSocket channel, tagged with the channel id.
* Request-body values seen by the `/scan` validation are embedded as
  `JSVal` (a JavaScript number modelled as an exact rational, `NaN`, or a
  non-number); the validation chain of server.js lines 160-180 is
  `validateScan`.  The operational model restricts the two ports to
  integers (the only values for which a scan is meaningful); the lemma
  `validateScan_int` connects the two embeddings.
* The TCP probe `attemptConnectToClient` (server.js lines 45-78) is
  embedded separately as a small handler machine over the socket events
  it subscribes to, with the `settled` flag and the at-most-once
  behaviour of `Promise` resolution made explicit.
* `deriveClientIp` embeds the address derivation of the connection
  handler (server.js lines 211-222).  To keep every definition kernel
  computable, the JavaScript string primitives `split(',')[0]`, `trim()`
  and `replace(/^::ffff:/, '')` are modelled on `List Char`
  (`firstCommaSeg`, `jsTrim`, `stripMappedV4`).
-/

namespace BulkScan

/-- Value of a JSON request-body field as seen by the `/scan` validation:
a finite JavaScript number (modelled exactly as a rational), `NaN`, or a
value whose `typeof` is not `'number'`. -/
inductive JSVal where
  | num (q : ℚ)
  | nan
  | notNum
deriving DecidableEq

/-- Embedding of `typeof v === 'number'` (true for `NaN` as well). -/
def jsTypeofNumber : JSVal → Bool
  | JSVal.num _ => true
  | JSVal.nan => true
  | JSVal.notNum => false

/-- Embedding of the JavaScript `<` on the values the validation compares.
Any comparison involving `NaN` is false.  The non-number branch is never
reached by the handler (the `typeof` disjuncts of the `||` chain fire
first); it is set to `false` arbitrarily. -/
def jsLt : JSVal → JSVal → Bool
  | JSVal.num a, JSVal.num b => decide (a < b)
  | _, _ => false

/-- Reasons the `/scan` handler rejects a request (server.js 160-180),
in source order. -/
inductive RejectReason where
  | noAgent
  | alreadyScanning
  | invalidRange
deriving DecidableEq

/-- Embedding of the validation chain of `app.post('/scan')`
(server.js lines 161-180): `connectedClient` null check, `isScanning`
check, then
`typeof startPort !== 'number' || typeof endPort !== 'number' || startPort < 1 || endPort < startPort`.
Returns `none` when the request is accepted. -/
def validateScan (hasClient busy : Bool) (s e : JSVal) : Option RejectReason :=
  if !hasClient then some RejectReason.noAgent
  else if busy then some RejectReason.alreadyScanning
  else if !(jsTypeofNumber s) || !(jsTypeofNumber e)
      || jsLt s (JSVal.num 1) || jsLt e s then some RejectReason.invalidRange
  else none

/-- Entry of `scanResults`: the object `{ port, status }` pushed by
`processNextPort`, whose `status` field is later mutated to a terminal
value and which receives an `error` field when the probe fails.  Ports are
integers in the operational model (see the header comment). -/
structure PortRec where
  port : ℤ
  status : String
  error : Option String := none
deriving DecidableEq

/-- Message transmitted server-to-agent over the WebSocket (the JSON
shapes of server.js).  `scanStarted` carries the raw request values. -/
inductive Msg where
  | welcome (publicIp : String)
  | scanStarted (startPort endPort : ℤ)
  | startListener (port : ℤ)
  | stopListener (port : ℤ)
  | portScanned (port : ℤ) (success : Bool) (error : Option String) (remaining : ℕ)
  | scanComplete (results : List PortRec)
deriving DecidableEq

/-- Inbound WebSocket message after `JSON.parse`, as far as the listener
registered by `processNextPort` inspects it: a `listening` or `error`
event with a port, or anything else (other events, non-matching shapes;
malformed JSON never reaches the listeners and is also `other`). -/
inductive InMsg where
  | listening (port : ℤ)
  | errorEv (port : ℤ)
  | other
deriving DecidableEq

/-- Pending continuation of one `processNextPort` chain:
`awaitAck ch p` is the `await` on the listener-acknowledgment promise,
with the one-shot handler registered on channel `ch` for port `p`
(server.js 101-118); `probing p` is the `await` on
`attemptConnectToClient(port)` (line 125); `timer` is a pending
`setTimeout(processNextPort, 100)` (line 152). -/
inductive OrcTask where
  | awaitAck (ch : ℕ) (port : ℤ)
  | probing (port : ℤ)
  | timer
deriving DecidableEq

/-- Response of the `/scan` endpoint: one of the three rejection bodies,
or `{ message: 'Scan started', total }`. -/
inductive ScanResp where
  | noAgent
  | alreadyScanning
  | invalidRange
  | started (total : ℕ)
deriving DecidableEq

/-- Whole-process state of server.js.  The mutable globals
`connectedClient` (identified by channel id), `clientPublicIp`,
`isScanning`, `scanQueue`, `scanResults`, plus the bookkeeping the
embedding needs: pending continuations (`tasks`), resolved-but-still-
attached one-shot listeners (`zombies`, see `handleMsg`), the supply of
fresh channel ids (`nextCh`), the set of open channels (`openChans`), and
whether the process has died from an uncaught exception or unhandled
rejection (`crashed`). -/
structure SrvState where
  connectedClient : Option ℕ
  clientPublicIp : Option String
  isScanning : Bool
  scanQueue : List ℤ
  scanResults : List PortRec
  tasks : List OrcTask
  zombies : List (ℕ × ℤ)
  nextCh : ℕ
  openChans : List ℕ
  crashed : Bool
deriving DecidableEq

/-- State at process start: no client, no scan. -/
def initState : SrvState :=
  { connectedClient := none, clientPublicIp := none, isScanning := false,
    scanQueue := [], scanResults := [], tasks := [], zombies := [],
    nextCh := 0, openChans := [], crashed := false }

/-- Character list of the IPv6-mapped-IPv4 marker `"::ffff:"`. -/
def mappedV4Marker : List Char := "::ffff:".data

/-- Embedding of `s.replace(/^::ffff:/, '')`: removes one leading
`::ffff:` if present (the regular expression is anchored and `replace`
rewrites only the first match). -/
def stripMappedV4 (s : String) : String :=
  if mappedV4Marker.isPrefixOf s.data then String.mk (s.data.drop 7) else s

/-- Boolean `startsWith`, used to state properties about the derived
address (kept on `List Char` so that it evaluates in the kernel). -/
def strStartsWith (s t : String) : Bool := t.data.isPrefixOf s.data

/-- Embedding of `f.split(',')[0]`: the characters before the first
comma. -/
def firstCommaSeg (l : List Char) : List Char := l.takeWhile (fun c => !(c == ','))

/-- Embedding of `String.prototype.trim`: strips whitespace from both
ends. -/
def jsTrim (s : String) : String :=
  String.mk (((s.data.dropWhile Char.isWhitespace).reverse.dropWhile Char.isWhitespace).reverse)

/-- Embedding of the public-IP derivation of the connection handler
(server.js 211-222).  `forwarded` is the `x-forwarded-for` header
(`none` when absent) and the JavaScript truthiness test makes the empty
string fall through to the `remoteAddress` branch; `remoteAddress` is
`req.socket.remoteAddress || ''`.  Only the fallback branch strips the
`::ffff:` marker. -/
def deriveClientIp (forwarded : Option String) (remoteAddress : String) : String :=
  match forwarded with
  | some ff => if ff = "" then stripMappedV4 remoteAddress
               else jsTrim (String.mk (firstCommaSeg ff.data))
  | none => stripMappedV4 remoteAddress

/-- Embedding of `sendToClient` (server.js 35-39): transmit on the
current channel when one is attached and open, otherwise do nothing
(the message is dropped; nothing is stored, queued or retried, and no
error is raised).  The result is the list of transmissions performed. -/
def sendToClient (st : SrvState) (m : Msg) : List (ℕ × Msg) :=
  match st.connectedClient with
  | some c => if c ∈ st.openChans then [(c, m)] else []
  | none => []

/-- Loop body of `for (let p = startPort; p <= endPort; p++) scanQueue.push(p)`
with explicit fuel.  The fuel passed by `buildQueue` is exactly the
number of iterations the loop performs, so the guard `p ≤ e` is what
terminates the loop, as in the source. -/
def buildQueueAux : ℕ → ℤ → ℤ → List ℤ
  | 0, _, _ => []
  | fuel + 1, p, e => if p ≤ e then p :: buildQueueAux fuel (p + 1) e else []

/-- Queue built by the accepted `/scan` request: every integer of
`[startPort, endPort]` in ascending order (server.js 183-186). -/
def buildQueue (s e : ℤ) : List ℤ :=
  buildQueueAux ((e - s).toNat + 1) s e

/-- Embedding of `scanResults.findIndex(r => r.port === port)`
(server.js 126), with `none` for the not-found `-1`. -/
def scanFindIndex (p : ℤ) : List PortRec → Option ℕ
  | [] => none
  | r :: t => if r.port == p then some 0 else (scanFindIndex p t).map (fun i => i + 1)

/-- Mutation performed on the found record (server.js 128-137): status
`'open'` on success, otherwise status `'closed'` plus the error detail. -/
def updRec (r : PortRec) (success : Bool) (err : String) : PortRec :=
  if success then { r with status := "open" }
  else { r with status := "closed", error := some err }

/-- In-place update `scanResults[idx] = ...` of the record list. -/
def setRecStatus : List PortRec → ℕ → Bool → String → List PortRec
  | [], _, _, _ => []
  | r :: t, 0, success, err => updRec r success err :: t
  | r :: t, i + 1, success, err => r :: setRecStatus t i success err

/-- Synchronous prefix of `processNextPort` (server.js 84-118), i.e. the
code that runs before the function first suspends.  Empty queue: clear
`isScanning` and send `scanComplete` with the accumulated results.
Otherwise: `shift` the front port, push a `pending` record, send
`startListener`, and register the one-shot acknowledgment listener on the
current channel - if no channel is attached at that point, the
`connectedClient.on(...)` call of line 117 throws on `null` and the
process dies (unhandled rejection). -/
def processNextPort (st : SrvState) : SrvState × List (ℕ × Msg) :=
  match st.scanQueue with
  | [] =>
    let st1 := { st with isScanning := false }
    (st1, sendToClient st1 (Msg.scanComplete st1.scanResults))
  | p :: rest =>
    let st1 := { st with scanQueue := rest,
                         scanResults := st.scanResults ++ [{ port := p, status := "pending" }] }
    let out := sendToClient st1 (Msg.startListener p)
    match st1.connectedClient with
    | none => ({ st1 with crashed := true }, out)
    | some c => ({ st1 with tasks := st1.tasks ++ [OrcTask.awaitAck c p] }, out)

/-- Continuation of `processNextPort` after the probe promise resolves
(server.js 125-152): find the record for the port, mutate it, send
`stopListener` and the `portScanned` progress event (whose `error` field
is `result.errorMessage || null` and whose `remaining` is the current
queue length), then schedule the next iteration.  The probe resolution
value carries `success` and `errorMessage`; the suspended chain is task
`i`.  A failed `findIndex` yields `-1` and `scanResults[-1].status = ...`
throws on `undefined`, killing the process (unhandled rejection); this is
reachable when a new scan reset `scanResults` while the probe was in
flight. -/
def resumeAfterProbe (st : SrvState) (i : ℕ) (p : ℤ) (success : Bool) (err : String) :
    SrvState × List (ℕ × Msg) :=
  match scanFindIndex p st.scanResults with
  | none => ({ st with crashed := true }, [])
  | some idx =>
    let st1 := { st with scanResults := setRecStatus st.scanResults idx success err }
    let o1 := sendToClient st1 (Msg.stopListener p)
    let o2 := sendToClient st1 (Msg.portScanned p success
                (if success then none else if err == "" then none else some err)
                st1.scanQueue.length)
    ({ st1 with tasks := st1.tasks.set i OrcTask.timer }, o1 ++ o2)

/-- Predicate of the one-shot listener of server.js 109-112: the inbound
message is a `listening` or `error` event whose `port` strictly equals
the awaited port. -/
def ackMatches (m : InMsg) (p : ℤ) : Bool :=
  match m with
  | InMsg.listening q => q == p
  | InMsg.errorEv q => q == p
  | InMsg.other => false

/-- Embedding of a message event on channel `ch`.  Every listener
registered on `ch` whose predicate matches runs `connectedClient
.removeListener(...); resolve()` (server.js 110-114):

* if `connectedClient` is `null` at that moment, the handler throws and
  the process dies;
* otherwise the awaiting chain resumes - it runs up to the probe `await`
  of line 125, becoming a `probing` task - and `removeListener` detaches
  the closure from the *current* channel, so when the current channel is
  not the one the closure was registered on, the closure survives as a
  `zombie`: its promise is already resolved, so a later match only
  re-runs the removal (and is dropped by the promise).

The per-connection top-level `ws.on('message')` handler (server.js
233-245) only logs and changes nothing. -/
def handleMsg (st : SrvState) (ch : ℕ) (m : InMsg) : SrvState × List (ℕ × Msg) :=
  let taskHit : OrcTask → Bool := fun t =>
    match t with
    | OrcTask.awaitAck c p => c == ch && ackMatches m p
    | _ => false
  let zombieHit : ℕ × ℤ → Bool := fun z => z.1 == ch && ackMatches m z.2
  let anyHit := st.tasks.any taskHit || st.zombies.any zombieHit
  match st.connectedClient with
  | none => if anyHit then ({ st with crashed := true }, []) else (st, [])
  | some cur =>
    let newTasks := st.tasks.map (fun t =>
      match t with
      | OrcTask.awaitAck c p =>
        if c == ch && ackMatches m p then OrcTask.probing p else OrcTask.awaitAck c p
      | t' => t')
    let bornZombies := st.tasks.filterMap (fun t =>
      match t with
      | OrcTask.awaitAck c p =>
        if c == ch && ackMatches m p && !(cur == ch) then some (ch, p) else none
      | _ => none)
    let keptZombies := st.zombies.filter (fun z => !(zombieHit z && cur == ch))
    ({ st with tasks := newTasks, zombies := keptZombies ++ bornZombies }, [])

/-- Embedding of `wss.on('connection')` (server.js 208-231): derive the
public IP, install the new channel as `connectedClient` (replacing any
prior one; nothing else of the scan state is touched), and send the
`welcome` handshake directly on the new channel. -/
def handleConnect (st : SrvState) (fwd : Option String) (remote : String) :
    SrvState × List (ℕ × Msg) :=
  let ip := deriveClientIp fwd remote
  let ch := st.nextCh
  ({ st with connectedClient := some ch, clientPublicIp := some ip,
             nextCh := ch + 1, openChans := st.openChans ++ [ch] },
   [(ch, Msg.welcome ip)])

/-- Embedding of `ws.on('close')` (server.js 247-253), which fires for
any channel that was ever connected, current or not: null the session,
clear the busy flag and discard the queue.  Results and pending
continuations are not touched. -/
def handleClose (st : SrvState) (ch : ℕ) : SrvState × List (ℕ × Msg) :=
  ({ st with openChans := st.openChans.filter (fun c => !(c == ch)),
             connectedClient := none, clientPublicIp := none,
             isScanning := false, scanQueue := [] }, [])

/-- Embedding of `app.post('/scan')` (server.js 160-199).  The three
validation checks in source order; on acceptance the queue is built, the
results reset, the busy flag set, `scanStarted` sent, and
`processNextPort()` invoked - it runs synchronously up to its first
`await` *before* `res.json` executes, so the reported `total` reads
`scanQueue.length` after the first port was already dequeued. -/
def handleScanRequest (st : SrvState) (s e : ℤ) : SrvState × List (ℕ × Msg) × ScanResp :=
  match st.connectedClient with
  | none => (st, [], ScanResp.noAgent)
  | some _ =>
    if st.isScanning then (st, [], ScanResp.alreadyScanning)
    else if s < 1 || e < s then (st, [], ScanResp.invalidRange)
    else
      let st1 := { st with scanQueue := buildQueue s e, scanResults := [],
                           isScanning := true }
      let o1 := sendToClient st1 (Msg.scanStarted s e)
      let r2 := processNextPort st1
      (r2.1, o1 ++ r2.2, ScanResp.started r2.1.scanQueue.length)

/-- Environment event delivered to the process: a new WebSocket
connection, a channel close, an HTTP `/scan` request (ports restricted to
integers, see the header comment), a message on a channel, the
resolution of the probe promise awaited by pending chain `i` (the
success flag and error text are the network's choice), or the firing of
the pending `setTimeout` of chain `i`. -/
inductive Action where
  | connect (fwd : Option String) (remote : String)
  | close (ch : ℕ)
  | request (s e : ℤ)
  | msg (ch : ℕ) (m : InMsg)
  | probeDone (i : ℕ) (success : Bool) (err : String)
  | timerFire (i : ℕ)
deriving DecidableEq

/-- One step of the whole process.  A crashed process does nothing.  A
close or message event is only deliverable on an open channel; a probe
resolution or timer firing only matches a pending task of the right
kind. -/
def step (st : SrvState) (a : Action) : SrvState × List (ℕ × Msg) :=
  if st.crashed then (st, []) else
  match a with
  | Action.connect fwd remote => handleConnect st fwd remote
  | Action.close ch => if ch ∈ st.openChans then handleClose st ch else (st, [])
  | Action.request s e =>
    let r := handleScanRequest st s e
    (r.1, r.2.1)
  | Action.msg ch m => if ch ∈ st.openChans then handleMsg st ch m else (st, [])
  | Action.probeDone i success err =>
    match st.tasks[i]? with
    | some (OrcTask.probing p) => resumeAfterProbe st i p success err
    | _ => (st, [])
  | Action.timerFire i =>
    match st.tasks[i]? with
    | some OrcTask.timer => processNextPort { st with tasks := st.tasks.eraseIdx i }
    | _ => (st, [])

/-- Run a list of environment events, collecting every channel
transmission in order. -/
def run : SrvState → List Action → SrvState × List (ℕ × Msg)
  | st, [] => (st, [])
  | st, a :: as =>
    let r1 := step st a
    let r2 := run r1.1 as
    (r2.1, r1.2 ++ r2.2)

/-! Probe machine (server.js 45-78).  `attemptConnectToClient` registers
a `connect` handler, an `error` handler and a 2000 ms timeout callback on
a fresh socket and returns a promise.  The machine below processes the
socket events in delivery order: the `error` and timeout handlers are
guarded by the `settled` flag; the `connect` handler is not, but a second
`resolve` on an already-resolved promise is dropped, so the promise value
is decided by the first event either way.  `socket.destroy()` is called
in every branch. -/

/-- Socket-level event delivered to the handlers registered by
`attemptConnectToClient`: connection established, connect error (with the
native error text), or the 2000 ms timeout firing. -/
inductive SockEv where
  | connected
  | errored (msg : String)
  | timedOut
deriving DecidableEq

/-- Value the probe promise resolves with:
`{ port, success, errorMessage? }`. -/
structure ProbeResult where
  port : ℤ
  success : Bool
  errorMessage : Option String := none
deriving DecidableEq

/-- State of one probe attempt: the `settled` flag, the promise content
(`none` while pending; a promise resolves at most once, the first value
wins), and whether `socket.destroy()` has run. -/
structure ProbeSt where
  settled : Bool
  resolvedVal : Option ProbeResult
  destroyed : Bool
deriving DecidableEq

/-- Probe state right after `attemptConnectToClient` set up the socket. -/
def probeInit : ProbeSt := { settled := false, resolvedVal := none, destroyed := false }

/-- At-most-once `resolve` of the promise. -/
def promiseResolve (o : Option ProbeResult) (r : ProbeResult) : Option ProbeResult :=
  match o with
  | some v => some v
  | none => some r

/-- One socket event through the handlers of server.js 51-73.  The
`connect` handler (51-55) settles, destroys and resolves with success,
without checking `settled`; the `error` handler (58-64) and the timeout
callback (67-73) do nothing when already settled, otherwise settle,
destroy and resolve with failure (`err.message`, resp. `'timeout'`). -/
def probeHandle (p : ℤ) (st : ProbeSt) (ev : SockEv) : ProbeSt :=
  match ev with
  | SockEv.connected =>
    { settled := true, destroyed := true,
      resolvedVal := promiseResolve st.resolvedVal
        { port := p, success := true } }
  | SockEv.errored m =>
    if st.settled then st
    else
      { settled := true, destroyed := true,
        resolvedVal := promiseResolve st.resolvedVal
          { port := p, success := false, errorMessage := some m } }
  | SockEv.timedOut =>
    if st.settled then st
    else
      { settled := true, destroyed := true,
        resolvedVal := promiseResolve st.resolvedVal
          { port := p, success := false, errorMessage := some "timeout" } }

/-- Embedding of one call `attemptConnectToClient(p)` observing the
socket events `evs` in delivery order. -/
def attemptConnectToClient (p : ℤ) (evs : List SockEv) : ProbeSt :=
  evs.foldl (probeHandle p) probeInit

/-- Outcome the spec assigns to a first socket event. -/
def classifySockEv (p : ℤ) : SockEv → ProbeResult
  | SockEv.connected => { port := p, success := true }
  | SockEv.errored m => { port := p, success := false, errorMessage := some m }
  | SockEv.timedOut => { port := p, success := false, errorMessage := some "timeout" }

/-- Timeout passed to `socket.setTimeout` (server.js 67). -/
def probeTimeoutMs : ℕ := 2000

/-! Canonical attached run: the environment behaviour assumed by the
completion claims - the agent session stays attached for the whole scan
and the agent acknowledges every `startListener` with a `listening` or
`error` event for that port, every probe resolves, and every pacing
timer fires. -/

/-- Agent-and-network behaviour for one port: which acknowledgment event
the agent sends, and how the probe resolves. -/
structure PortBeh where
  ackListening : Bool
  probeSuccess : Bool
  probeErr : String
deriving DecidableEq

/-- Environment events that drive one port of a canonical attached run on
channel 0: the acknowledgment, the probe resolution, the pacing timer. -/
def behActs (p : ℤ) (b : PortBeh) : List Action :=
  [Action.msg 0 (if b.ackListening then InMsg.listening p else InMsg.errorEv p),
   Action.probeDone 0 b.probeSuccess b.probeErr,
   Action.timerFire 0]

/-- Ports `p, p+1, ...` paired with the chosen behaviours. -/
def consecPairs (p : ℤ) : List PortBeh → List (ℤ × PortBeh)
  | [] => []
  | b :: t => (p, b) :: consecPairs (p + 1) t

/-- Terminal record produced for port `p` under behaviour `b`. -/
def recOf (p : ℤ) (b : PortBeh) : PortRec :=
  { port := p,
    status := if b.probeSuccess then "open" else "closed",
    error := if b.probeSuccess then none else some b.probeErr }

/-- The `error` field of the `portScanned` event
(`result.errorMessage || null`). -/
def errField (b : PortBeh) : Option String :=
  if b.probeSuccess then none else if b.probeErr == "" then none else some b.probeErr

/-- Server state in the middle of a canonical attached run on channel 0:
records `done` are finished, port `p` was just dequeued (its `pending`
record pushed, `startListener` sent, acknowledgment awaited) and `rest`
is the remaining queue. -/
def midState (done : List PortRec) (p : ℤ) (rest : List ℤ) (ip : String) : SrvState :=
  { connectedClient := some 0, clientPublicIp := some ip, isScanning := true,
    scanQueue := rest, scanResults := done ++ [{ port := p, status := "pending" }],
    tasks := [OrcTask.awaitAck 0 p], zombies := [], nextCh := 1,
    openChans := [0], crashed := false }

/-- Channel-0 transmissions of the canonical run from the point where the
head port's acknowledgment is awaited: per port its `stopListener` and
`portScanned`, then either the next `startListener` or the final
`scanComplete`. -/
def canonSends (done : List PortRec) : List (ℤ × PortBeh) → List (ℕ × Msg)
  | [] => []
  | (p, b) :: t =>
    (0, Msg.stopListener p) ::
    (0, Msg.portScanned p b.probeSuccess (errField b) t.length) ::
    match t with
    | [] => [(0, Msg.scanComplete (done ++ [recOf p b]))]
    | (q, _) :: _ => (0, Msg.startListener q) :: canonSends (done ++ [recOf p b]) t

/-- Full environment trace of a canonical attached scan of `[s, e]`:
one connection, the accepted request, then the per-port events. -/
def canonScan (s e : ℤ) (bs : List PortBeh) : List Action :=
  Action.connect none "" :: Action.request s e ::
    (consecPairs s bs).flatMap (fun x => behActs x.1 x.2)

/-- Did the already-sent trace contain `stopListener q`? -/
def seenHasStop (q : ℤ) (seen : List (ℕ × Msg)) : Bool :=
  seen.any (fun x =>
    match x.2 with
    | Msg.stopListener r => r == q
    | _ => false)

/-- Did the already-sent trace contain a `portScanned` event for `q`? -/
def seenHasScanned (q : ℤ) (seen : List (ℕ × Msg)) : Bool :=
  seen.any (fun x =>
    match x.2 with
    | Msg.portScanned r _ _ _ => r == q
    | _ => false)

/-- Strict-serialization check of the claim: walking the transmission
trace with accumulator `seen`, every `startListener q` other than the
run's first port `s` must be preceded by both the `stopListener` and the
`portScanned` of the previous port `q - 1`. -/
def seqOk (s : ℤ) : List (ℕ × Msg) → List (ℕ × Msg) → Bool
  | _, [] => true
  | seen, x :: t =>
    (match x.2 with
     | Msg.startListener q =>
       (q == s) || (seenHasStop (q - 1) seen && seenHasScanned (q - 1) seen)
     | _ => true) && seqOk s (seen ++ [x]) t

/-- Environment trace refuting the strict-serialization claim: a scan of
`[1,1]` is interrupted mid-probe by the channel closing; a new channel
attaches and starts a scan of `[1,3]`; the stale probe of the first run
then resolves, finds the new run's record for port 1, and schedules a
second `processNextPort` chain - the two chains interleave on the new
run's queue, and `startListener 3` is transmitted although
`stopListener 2` never was. -/
def c7Trace : List Action :=
  [Action.connect none "",
   Action.request 1 1,
   Action.msg 0 (InMsg.listening 1),
   Action.close 0,
   Action.connect none "",
   Action.request 1 3,
   Action.probeDone 0 false "timeout",
   Action.msg 1 (InMsg.listening 1),
   Action.timerFire 0,
   Action.probeDone 0 false "refused",
   Action.timerFire 0]

/-- The rational 3/2: a JavaScript number that is not an integer (the
constructor form keeps it kernel computable). -/
def threeHalves : ℚ := ⟨3, 2, by norm_num, by norm_num⟩

/-- State after the first connection on a fresh process (channel 0, no
forwarding header, empty remote address). -/
def connState : SrvState :=
  { connectedClient := some 0, clientPublicIp := some "", isScanning := false,
    scanQueue := [], scanResults := [], tasks := [], zombies := [],
    nextCh := 1, openChans := [0], crashed := false }

/-- Mid-run state while the probe for port `p` is awaited. -/
def probingState (done : List PortRec) (p : ℤ) (rest : List ℤ) (ip : String) : SrvState :=
  { midState done p rest ip with tasks := [OrcTask.probing p] }

/-- Mid-run state while the 100 ms pacing timer is pending: the records
`done` are complete, `rest` is the remaining queue. -/
def pacingState (done : List PortRec) (rest : List ℤ) (ip : String) : SrvState :=
  { connectedClient := some 0, clientPublicIp := some ip, isScanning := true,
    scanQueue := rest, scanResults := done, tasks := [OrcTask.timer], zombies := [],
    nextCh := 1, openChans := [0], crashed := false }

/-- State after a canonical attached run completed. -/
def doneState (done : List PortRec) (ip : String) : SrvState :=
  { connectedClient := some 0, clientPublicIp := some ip, isScanning := false,
    scanQueue := [], scanResults := done, tasks := [], zombies := [],
    nextCh := 1, openChans := [0], crashed := false }

/-- Invariant of every reachable state: the attached channel is open, and
every open channel id was allocated. -/
def GoodState (st : SrvState) : Prop :=
  (∀ c, st.connectedClient = some c → c ∈ st.openChans) ∧
  (∀ c ∈ st.openChans, c < st.nextCh)

/-! Theorems.  Helper lemmas come first, then one theorem per claim of
the specification (with witnesses and counterexamples where needed). -/

/-- C9: `sendToClient` is total and silently drops the message when no
channel is attached or the attached channel is not open; it transmits
exactly the one message when the channel is attached and open.  The
function returns only the transmissions performed and stores nothing, so
a dropped message is neither queued nor retried, and no error is
raised. -/
theorem c9_send_silent_noop (st : SrvState) (m : Msg) (c : ℕ) :
    (st.connectedClient = none → sendToClient st m = []) ∧
    (st.connectedClient = some c → c ∉ st.openChans → sendToClient st m = []) ∧
    (st.connectedClient = some c → c ∈ st.openChans → sendToClient st m = [(c, m)]) := by
  refine ⟨fun h => by simp [sendToClient, h], fun h hc => ?_, fun h hc => ?_⟩
  · simp [sendToClient, h, hc]
  · simp [sendToClient, h, hc]

/-- Witness for C9: on the fresh process no channel is attached and a
send is dropped. -/
theorem c9_witness : sendToClient initState (Msg.welcome "") = [] :=
  (c9_send_silent_noop initState (Msg.welcome "") 0).1 rfl

/-- C10: a rejected `/scan` request (any of the three rejection reasons)
has no side effects: the state - busy flag, queue, results, everything -
is returned unchanged and no message is transmitted on the agent
channel. -/
theorem c10_reject_no_side_effects (st : SrvState) (s e : ℤ)
    (h : (handleScanRequest st s e).2.2 = ScanResp.noAgent ∨
         (handleScanRequest st s e).2.2 = ScanResp.alreadyScanning ∨
         (handleScanRequest st s e).2.2 = ScanResp.invalidRange) :
    (handleScanRequest st s e).1 = st ∧ (handleScanRequest st s e).2.1 = [] := by
  rcases hc : st.connectedClient with _ | c
  · constructor <;> simp [handleScanRequest, hc]
  · by_cases hb : st.isScanning
    · constructor <;> simp [handleScanRequest, hc, hb]
    · by_cases hr : (s < 1 || e < s) = true
      · constructor <;> simp [handleScanRequest, hc, hb, hr]
      · exfalso
        rcases h with h | h | h <;> simp [handleScanRequest, hc, hb, hr] at h

/-- Witness for C10: a request on a fresh process (no agent) is rejected
and leaves the state untouched. -/
theorem c10_witness :
    (handleScanRequest initState 1 1).1 = initState ∧
    (handleScanRequest initState 1 1).2.1 = [] :=
  c10_reject_no_side_effects initState 1 1 (Or.inl (by decide))

/-- Counterexample for C3: the request `{startPort: 3/2, endPort: 2}` has
a non-integer `startPort`, which the claim says must be rejected as
`InvalidRange`; the validation (which only checks `typeof ... 'number'`)
accepts it. -/
theorem c3_counterexample :
    validateScan true false (JSVal.num threeHalves) (JSVal.num 2) = none := by decide

/-- C3 (amended): validation applies in source order with the first
failing check winning - no agent, then busy, then the range check - but
the range check rejects non-numbers (`typeof`), not non-integers, besides
`startPort < 1` and `endPort < startPort` (comparisons in which `NaN`
makes every test false, so a `NaN` port is accepted). -/
theorem c3_validation_order (hasClient busy : Bool) (s e : JSVal) :
    (validateScan hasClient busy s e = some RejectReason.noAgent ↔ hasClient = false) ∧
    (validateScan hasClient busy s e = some RejectReason.alreadyScanning ↔
      hasClient = true ∧ busy = true) ∧
    (validateScan hasClient busy s e = some RejectReason.invalidRange ↔
      hasClient = true ∧ busy = false ∧
      (jsTypeofNumber s = false ∨ jsTypeofNumber e = false ∨
       jsLt s (JSVal.num 1) = true ∨ jsLt e s = true)) ∧
    (validateScan hasClient busy s e = none ↔
      hasClient = true ∧ busy = false ∧
      jsTypeofNumber s = true ∧ jsTypeofNumber e = true ∧
      jsLt s (JSVal.num 1) = false ∧ jsLt e s = false) := by
  cases hasClient <;> cases busy <;>
    cases hts : jsTypeofNumber s <;> cases hte : jsTypeofNumber e <;>
    cases hl1 : jsLt s (JSVal.num 1) <;> cases hl2 : jsLt e s <;>
      simp [validateScan, hts, hte, hl1, hl2]

/-- Counterexample for C8: an `x-forwarded-for` value carrying the
IPv6-mapped-IPv4 marker is stored verbatim (first comma entry, trimmed,
no prefix removal), so the stored address does begin with `::ffff:`,
contradicting the claim that it never does. -/
theorem c8_counterexample :
    strStartsWith (deriveClientIp (some "::ffff:203.0.113.25") "") "::ffff:" = true := by
  decide

/-- C8 (amended): only the fallback branch normalizes - when the address
is derived from the socket's remote address, one leading `::ffff:` is
stripped, so the stored string does not begin with `::ffff:` (unless the
remote address carried a doubled marker, which the anchored
first-match-only `replace` strips once); an address derived from the
`x-forwarded-for` header is not normalized at all. -/
theorem c8_fallback_strips (r : String)
    (h : mappedV4Marker.isPrefixOf (r.data.drop 7) = false) :
    strStartsWith (deriveClientIp none r) "::ffff:" = false := by
  by_cases hp : mappedV4Marker.isPrefixOf r.data = true
  · have hd : deriveClientIp none r = String.mk (r.data.drop 7) := by
      simp [deriveClientIp, stripMappedV4, hp]
    rw [hd]
    exact h
  · simp only [Bool.not_eq_true] at hp
    have hd : deriveClientIp none r = r := by
      simp [deriveClientIp, stripMappedV4, hp]
    rw [hd]
    exact hp

/-- Witness for C8 (amended): the usual single-marker remote address is
stripped. -/
theorem c8_witness :
    strStartsWith (deriveClientIp none "::ffff:10.0.0.7") "::ffff:" = false :=
  c8_fallback_strips "::ffff:10.0.0.7" (by decide)

/-- C2 (the code as it is): with an agent connected, a `/scan` request
for `[1,1]` is accepted but the response's `total` is `0`, and one for
`[1,3]` reports `2` - `processNextPort()` runs synchronously up to its
first `await` before `res.json` reads `scanQueue.length`, so the reported
total is `endPort - startPort`, one less than the queued port count the
claim (and the spec) state. -/
theorem c2_total_off_by_one :
    (handleScanRequest ((run initState [Action.connect none ""]).1) 1 1).2.2 =
      ScanResp.started 0 ∧
    (handleScanRequest ((run initState [Action.connect none ""]).1) 1 3).2.2 =
      ScanResp.started 2 := by
  exact ⟨by decide, by decide⟩

/-- Counterexample for C4: with a scan of `[1,2]` in flight (busy, queue
`[2]`), a second channel attaches and replaces the first; the busy flag
is still set and the queue still holds port 2 - attaching does not abort
the run. -/
theorem c4_counterexample :
    (run initState
      [Action.connect none "", Action.request 1 2, Action.connect none ""]).1.isScanning
        = true ∧
    (run initState
      [Action.connect none "", Action.request 1 2, Action.connect none ""]).1.scanQueue
        = [2] := by
  exact ⟨by decide, by decide⟩

/-- C4 (amended): attaching a new agent session replaces the channel
handle and the stored address wholesale but leaves the busy flag, the
queue and the results untouched; an in-flight run is aborted only by
channel closure (the `close` handler), not by replacement. -/
theorem c4_attach_preserves_run (st : SrvState) (fwd : Option String) (remote : String)
    (h : st.crashed = false) :
    (step st (Action.connect fwd remote)).1.isScanning = st.isScanning ∧
    (step st (Action.connect fwd remote)).1.scanQueue = st.scanQueue ∧
    (step st (Action.connect fwd remote)).1.scanResults = st.scanResults ∧
    (step st (Action.connect fwd remote)).1.connectedClient = some st.nextCh ∧
    (step st (Action.connect fwd remote)).1.clientPublicIp =
      some (deriveClientIp fwd remote) ∧
    (step st (Action.connect fwd remote)).2 =
      [(st.nextCh, Msg.welcome (deriveClientIp fwd remote))] := by
  simp [step, h, handleConnect]

/-- Witness for C4 (amended): applied to the mid-scan state of the
counterexample trace. -/
theorem c4_witness :
    (step ((run initState [Action.connect none "", Action.request 1 2]).1)
        (Action.connect none "")).1.isScanning =
      ((run initState [Action.connect none "", Action.request 1 2]).1).isScanning ∧
    (step ((run initState [Action.connect none "", Action.request 1 2]).1)
        (Action.connect none "")).1.scanQueue =
      ((run initState [Action.connect none "", Action.request 1 2]).1).scanQueue ∧
    (step ((run initState [Action.connect none "", Action.request 1 2]).1)
        (Action.connect none "")).1.scanResults =
      ((run initState [Action.connect none "", Action.request 1 2]).1).scanResults ∧
    (step ((run initState [Action.connect none "", Action.request 1 2]).1)
        (Action.connect none "")).1.connectedClient =
      some ((run initState [Action.connect none "", Action.request 1 2]).1).nextCh ∧
    (step ((run initState [Action.connect none "", Action.request 1 2]).1)
        (Action.connect none "")).1.clientPublicIp =
      some (deriveClientIp none "") ∧
    (step ((run initState [Action.connect none "", Action.request 1 2]).1)
        (Action.connect none "")).2 =
      [(((run initState [Action.connect none "", Action.request 1 2]).1).nextCh,
        Msg.welcome (deriveClientIp none ""))] :=
  c4_attach_preserves_run ((run initState [Action.connect none "", Action.request 1 2]).1)
    none "" (by decide)

/-- Helper for C6: once the probe promise is resolved and the socket
destroyed, later socket events change nothing. -/
theorem probeHandle_fixed (p : ℤ) (r : ProbeResult) (ev : SockEv) :
    probeHandle p { settled := true, resolvedVal := some r, destroyed := true } ev =
      { settled := true, resolvedVal := some r, destroyed := true } := by
  cases ev <;> simp [probeHandle, promiseResolve]

/-- Helper for C6: folding any further events over a settled probe state
is the identity. -/
theorem probeFold_fixed (p : ℤ) (r : ProbeResult) (evs : List SockEv) :
    evs.foldl (probeHandle p)
        { settled := true, resolvedVal := some r, destroyed := true } =
      { settled := true, resolvedVal := some r, destroyed := true } := by
  induction evs with
  | nil => rfl
  | cons ev t ih => simp [List.foldl_cons, probeHandle_fixed, ih]

/-- Helper for C6: the first socket event settles, destroys and resolves
according to its kind. -/
theorem probeHandle_first (p : ℤ) (ev : SockEv) :
    probeHandle p probeInit ev =
      { settled := true, resolvedVal := some (classifySockEv p ev), destroyed := true } := by
  cases ev <;> simp [probeHandle, probeInit, promiseResolve, classifySockEv]

/-- C6: every probe call resolves exactly once, with the outcome decided
by the first socket event - connection established gives `success=true`
and no detail, a connect error gives `success=false` with the native
text, and the timeout callback (armed at 2000 ms) gives `success=false`
with detail `timeout`; the socket is destroyed on every branch, and all
later events for the same attempt leave the resolved value unchanged. -/
theorem c6_probe_first_event_wins (p : ℤ) (ev : SockEv) (rest : List SockEv) :
    (attemptConnectToClient p (ev :: rest)).resolvedVal =
      some (classifySockEv p ev) ∧
    (attemptConnectToClient p (ev :: rest)).destroyed = true ∧
    probeTimeoutMs = 2000 := by
  have h : attemptConnectToClient p (ev :: rest) =
      { settled := true, resolvedVal := some (classifySockEv p ev), destroyed := true } := by
    simp [attemptConnectToClient, List.foldl_cons, probeHandle_first, probeFold_fixed]
  simp [h, probeTimeoutMs]

/-- Unfolding of `run` over a concatenation of two event lists. -/
theorem run_append (l1 l2 : List Action) : ∀ st : SrvState,
    run st (l1 ++ l2) =
      ((run (run st l1).1 l2).1, (run st l1).2 ++ (run (run st l1).1 l2).2) := by
  induction l1 with
  | nil => intro st; simp [run]
  | cons a t ih => intro st; simp [run, ih, List.append_assoc]

/-- The queue loop pushes exactly the ports of the canonical pairing:
with fuel matching the iteration count, the ports `p, p+1, ...` come out
one per behaviour entry. -/
theorem buildQueueAux_consecPairs : ∀ (bs : List PortBeh) (b : PortBeh) (p : ℤ),
    buildQueueAux (bs.length + 1) p (p + (bs.length : ℤ)) =
      (consecPairs p (b :: bs)).map Prod.fst := by
  intro bs
  induction bs with
  | nil => intro b p; simp [buildQueueAux, consecPairs]
  | cons b2 t ih =>
    intro b p
    have hle : p ≤ p + ((t.length + 1 : ℕ) : ℤ) := by push_cast; omega
    have hsh : p + ((t.length + 1 : ℕ) : ℤ) = (p + 1) + (t.length : ℤ) := by
      push_cast; ring
    rw [List.length_cons, buildQueueAux, if_pos (hsh ▸ hle), hsh, ih b2 (p + 1)]
    simp [consecPairs]

/-- Number of canonical pairs. -/
theorem consecPairs_length : ∀ (bs : List PortBeh) (p : ℤ),
    (consecPairs p bs).length = bs.length := by
  intro bs
  induction bs with
  | nil => intro p; rfl
  | cons b t ih => intro p; simp [consecPairs, ih]

/-- Ports of the canonical pairing are the consecutive integers from
`p`. -/
theorem consecPairs_map_fst : ∀ (bs : List PortBeh) (p : ℤ),
    (consecPairs p bs).map Prod.fst =
      (List.range bs.length).map (fun i : ℕ => p + (i : ℤ)) := by
  intro bs
  induction bs with
  | nil => intro p; simp [consecPairs]
  | cons b t ih =>
    intro p
    rw [consecPairs, List.map_cons, ih (p + 1), List.length_cons,
      List.range_succ_eq_map, List.map_cons, List.map_map]
    refine congrArg₂ List.cons (by simp) ?_
    apply List.map_congr_left
    intro i _
    simp [Function.comp]
    ring

/-- The queue of an accepted scan equals the ports of the canonical
pairing when the behaviour list has one entry per port. -/
theorem buildQueue_consec (s e : ℤ) (b : PortBeh) (bs : List PortBeh) (h : s ≤ e)
    (hlen : bs.length = (e - s).toNat) :
    buildQueue s e = (consecPairs s (b :: bs)).map Prod.fst := by
  have he : e = s + (bs.length : ℤ) := by omega
  rw [buildQueue, he, hlen]
  rw [show (s + ((e - s).toNat : ℤ) - s).toNat = (e - s).toNat from by omega]
  rw [← hlen]
  exact buildQueueAux_consecPairs bs b s

/-- `findIndex` locates the just-pushed `pending` record when no earlier
record carries the same port. -/
theorem scanFindIndex_last (p : ℤ) (r : PortRec) (hr : r.port = p) :
    ∀ l : List PortRec, (∀ x ∈ l, (x.port == p) = false) →
      scanFindIndex p (l ++ [r]) = some l.length := by
  intro l
  induction l with
  | nil => intro _; simp [scanFindIndex, hr]
  | cons x t ih =>
    intro h
    have hx : (x.port == p) = false := h x (List.mem_cons_self x t)
    have ht := ih (fun y hy => h y (List.mem_cons_of_mem x hy))
    simp [scanFindIndex, hx, ht]

/-- `scanResults[idx] = ...` at the index of the `pending` record. -/
theorem setRecStatus_last (success : Bool) (err : String) (r : PortRec) :
    ∀ l : List PortRec,
      setRecStatus (l ++ [r]) l.length success err = l ++ [updRec r success err] := by
  intro l
  induction l with
  | nil => simp [setRecStatus]
  | cons x t ih => simp [setRecStatus, ih]

/-- The mutation of the `pending` record yields the terminal record of
the canonical run. -/
theorem updRec_pending (p : ℤ) (b : PortBeh) :
    updRec { port := p, status := "pending" } b.probeSuccess b.probeErr = recOf p b := by
  cases h : b.probeSuccess <;> simp [updRec, recOf, h]

/-- Mid-run step: a matching acknowledgment resumes the waiting chain,
which suspends again on the probe. -/
theorem step_mid_msg (done : List PortRec) (p : ℤ) (rest : List ℤ) (ip : String)
    (m : InMsg) (hm : ackMatches m p = true) :
    step (midState done p rest ip) (Action.msg 0 m) =
      (probingState done p rest ip, []) := by
  simp [step, midState, probingState, handleMsg, hm]

/-- Mid-run step: the probe resolution records the outcome, sends
`stopListener` and `portScanned`, and schedules the pacing timer. -/
theorem step_mid_probe (done : List PortRec) (p : ℤ) (rest : List ℤ) (ip : String)
    (success : Bool) (err : String)
    (hdone : ∀ x ∈ done, (x.port == p) = false) :
    step (probingState done p rest ip) (Action.probeDone 0 success err) =
      (pacingState (done ++ [updRec { port := p, status := "pending" } success err]) rest ip,
       [(0, Msg.stopListener p),
        (0, Msg.portScanned p success
          (if success then none else if err == "" then none else some err) rest.length)]) := by
  have hf := scanFindIndex_last p { port := p, status := "pending" } rfl done hdone
  have hs := setRecStatus_last success err { port := p, status := "pending" } done
  simp [step, probingState, midState, pacingState, resumeAfterProbe, hf, hs, sendToClient]

/-- Mid-run step: the pacing timer fires on an empty queue, completing
the scan. -/
theorem step_mid_timer_done (done : List PortRec) (ip : String) :
    step (pacingState done [] ip) (Action.timerFire 0) =
      (doneState done ip, [(0, Msg.scanComplete done)]) := by
  simp [step, pacingState, doneState, processNextPort, sendToClient]

/-- Mid-run step: the pacing timer fires on a non-empty queue, dequeuing
the next port. -/
theorem step_mid_timer_next (done : List PortRec) (q : ℤ) (rest : List ℤ) (ip : String) :
    step (pacingState done (q :: rest) ip) (Action.timerFire 0) =
      (midState done q rest ip, [(0, Msg.startListener q)]) := by
  simp [step, pacingState, midState, processNextPort, sendToClient]

/-- One unfolding of `run` with a known step result. -/
theorem run_cons_eq (st st1 : SrvState) (a : Action) (as : List Action)
    (o1 : List (ℕ × Msg)) (h1 : step st a = (st1, o1)) :
    run st (a :: as) = ((run st1 as).1, o1 ++ (run st1 as).2) := by
  simp [run, h1]

/-- Three unfoldings of `run` with known step results. -/
theorem run_three (st st1 st2 st3 : SrvState) (a1 a2 a3 : Action)
    (o1 o2 o3 : List (ℕ × Msg))
    (h1 : step st a1 = (st1, o1)) (h2 : step st1 a2 = (st2, o2))
    (h3 : step st2 a3 = (st3, o3)) :
    run st [a1, a2, a3] = (st3, o1 ++ (o2 ++ o3)) := by
  simp [run, h1, h2, h3]

/-- The acknowledgment chosen by a behaviour always matches its port. -/
theorem ack_self (p : ℤ) (b : PortBeh) :
    ackMatches (if b.ackListening then InMsg.listening p else InMsg.errorEv p) p = true := by
  cases b.ackListening <;> simp [ackMatches]

/-- The record mutation keeps the port. -/
theorem updRec_port (r : PortRec) (success : Bool) (err : String) :
    (updRec r success err).port = r.port := by
  cases success <;> simp [updRec]

/-- Main loop of the canonical attached run: from the state where port
`p` was dequeued and its acknowledgment is awaited, the per-port
environment events drive the scan to completion, appending one terminal
record per port and transmitting exactly the canonical sequence. -/
theorem canonLoop : ∀ (bs : List PortBeh) (b : PortBeh) (p : ℤ) (done : List PortRec)
    (ip : String), (∀ r ∈ done, r.port < p) →
    run (midState done p ((consecPairs (p + 1) bs).map Prod.fst) ip)
        ((consecPairs p (b :: bs)).flatMap (fun x => behActs x.1 x.2)) =
      (doneState (done ++ (consecPairs p (b :: bs)).map (fun x => recOf x.1 x.2)) ip,
       canonSends done (consecPairs p (b :: bs))) := by
  intro bs
  induction bs with
  | nil =>
    intro b p done ip hdone
    have hdone' : ∀ x ∈ done, (x.port == p) = false := by
      intro x hx
      have := hdone x hx
      simp only [beq_eq_false_iff_ne, ne_eq]
      omega
    have h1 := step_mid_msg done p [] ip _ (ack_self p b)
    have h2 := step_mid_probe done p [] ip b.probeSuccess b.probeErr hdone'
    have h3 := step_mid_timer_done
      (done ++ [updRec { port := p, status := "pending" } b.probeSuccess b.probeErr]) ip
    simp only [consecPairs, List.map_nil, List.flatMap_cons, List.flatMap_nil,
      List.append_nil, behActs]
    rw [run_three _ _ _ _ _ _ _ _ _ _ h1 h2 h3, updRec_pending]
    simp [canonSends, errField]
  | cons b2 t ih =>
    intro b p done ip hdone
    have hdone' : ∀ x ∈ done, (x.port == p) = false := by
      intro x hx
      have := hdone x hx
      simp only [beq_eq_false_iff_ne, ne_eq]
      omega
    have hdone1 : ∀ r ∈ done ++ [recOf p b], r.port < p + 1 := by
      intro r hr
      rcases List.mem_append.mp hr with hr | hr
      · have := hdone r hr; omega
      · simp only [List.mem_singleton] at hr
        subst hr
        simp [recOf]
    have hrest : (consecPairs (p + 1) (b2 :: t)).map Prod.fst =
        (p + 1) :: (consecPairs (p + 1 + 1) t).map Prod.fst := by
      simp [consecPairs]
    have h1 := step_mid_msg done p ((consecPairs (p + 1) (b2 :: t)).map Prod.fst) ip _
      (ack_self p b)
    have h2 := step_mid_probe done p ((consecPairs (p + 1) (b2 :: t)).map Prod.fst) ip
      b.probeSuccess b.probeErr hdone'
    have h3 : step (pacingState
        (done ++ [updRec { port := p, status := "pending" } b.probeSuccess b.probeErr])
        ((consecPairs (p + 1) (b2 :: t)).map Prod.fst) ip) (Action.timerFire 0) =
        (midState
          (done ++ [updRec { port := p, status := "pending" } b.probeSuccess b.probeErr])
          (p + 1) ((consecPairs (p + 1 + 1) t).map Prod.fst) ip,
         [(0, Msg.startListener (p + 1))]) := by
      rw [hrest]
      exact step_mid_timer_next _ _ _ _
    have hthree := run_three _ _ _ _ _ _ _ _ _ _ h1 h2 h3
    have hfm : (consecPairs p (b :: b2 :: t)).flatMap (fun x => behActs x.1 x.2) =
        behActs p b ++ (consecPairs (p + 1) (b2 :: t)).flatMap (fun x => behActs x.1 x.2) := by
      simp [consecPairs]
    rw [hfm, run_append]
    rw [show behActs p b =
      [Action.msg 0 (if b.ackListening then InMsg.listening p else InMsg.errorEv p),
       Action.probeDone 0 b.probeSuccess b.probeErr, Action.timerFire 0] from rfl]
    rw [hthree]
    rw [updRec_pending] at *
    rw [ih b2 (p + 1) (done ++ [recOf p b]) ip hdone1]
    refine Prod.ext ?_ ?_
    · simp [consecPairs]
    · simp only [consecPairs, canonSends, List.length_map, consecPairs_length]
      simp [consecPairs_length, List.length_map, errField]

/-- Kickoff of an accepted scan: connecting and posting a valid request
leaves the process in the mid-run state for the first port, after the
`welcome`, `scanStarted` and first `startListener` transmissions. -/
theorem scan_kickoff (s e : ℤ) (rest : List ℤ) (hs : 1 ≤ s)
    (hq : buildQueue s e = s :: rest) :
    run initState [Action.connect none "", Action.request s e] =
      (midState [] s rest "",
       [(0, Msg.welcome ""), (0, Msg.scanStarted s e), (0, Msg.startListener s)]) := by
  have h1 : step initState (Action.connect none "") =
      (connState, [(0, Msg.welcome "")]) := by decide
  have hvr : (decide (s < 1) || decide (e < s)) = false := by
    simp only [Bool.or_eq_false_iff, decide_eq_false_iff_not]
    constructor
    · omega
    · intro h
      rw [buildQueue, show (e - s).toNat = 0 from by omega] at hq
      simp [buildQueueAux, show ¬(s ≤ e) from by omega] at hq
  have h2 : step connState (Action.request s e) =
      (midState [] s rest "",
       [(0, Msg.scanStarted s e), (0, Msg.startListener s)]) := by
    simp [step, connState, handleScanRequest, hvr, hq, processNextPort, sendToClient,
      midState]
  rw [run_cons_eq _ _ _ _ _ h1, run_cons_eq _ _ _ _ _ h2]
  simp [run]

/-- Ports of the terminal records are the scanned ports. -/
theorem map_port_recOf (l : List (ℤ × PortBeh)) :
    (l.map (fun x => recOf x.1 x.2)).map PortRec.port = l.map Prod.fst := by
  rw [List.map_map]
  apply List.map_congr_left
  intro x _
  simp [recOf]

/-- The canonical transmissions end with a `scanComplete` event carrying
the full results list. -/
theorem scanComplete_mem_canonSends : ∀ (bs : List PortBeh) (b : PortBeh) (p : ℤ)
    (done : List PortRec),
    (0, Msg.scanComplete
        (done ++ (consecPairs p (b :: bs)).map (fun x => recOf x.1 x.2))) ∈
      canonSends done (consecPairs p (b :: bs)) := by
  intro bs
  induction bs with
  | nil => intro b p done; simp [consecPairs, canonSends]
  | cons b2 t ih =>
    intro b p done
    have h := ih b2 (p + 1) (done ++ [recOf p b])
    rw [show consecPairs p (b :: b2 :: t) =
      (p, b) :: (p + 1, b2) :: consecPairs (p + 1 + 1) t from rfl]
    rw [show canonSends done ((p, b) :: (p + 1, b2) :: consecPairs (p + 1 + 1) t) =
      (0, Msg.stopListener p) ::
      (0, Msg.portScanned p b.probeSuccess (errField b)
        ((p + 1, b2) :: consecPairs (p + 1 + 1) t).length) ::
      (0, Msg.startListener (p + 1)) ::
      canonSends (done ++ [recOf p b]) ((p + 1, b2) :: consecPairs (p + 1 + 1) t) from rfl]
    refine List.mem_cons_of_mem _ (List.mem_cons_of_mem _ (List.mem_cons_of_mem _ ?_))
    rw [show consecPairs (p + 1) (b2 :: t) =
      (p + 1, b2) :: consecPairs (p + 1 + 1) t from rfl] at h
    simpa [List.append_assoc] using h

/-- C1: in a canonical attached run over a valid range `[s, e]` (busy
agent acknowledging every `startListener` with a `listening` or `error`
event for that port), the completed scan's results list carries exactly
the ascending integers `s, s+1, ..., e`, each port once and in order,
every record with terminal status `open` or `closed`; the run ends with
the busy flag cleared and a `scanComplete` event carrying exactly that
results list. -/
theorem c1_results_complete (s e : ℤ) (bs : List PortBeh)
    (hs : 1 ≤ s) (hse : s ≤ e) (hlen : bs.length = (e - s).toNat + 1) :
    (run initState (canonScan s e bs)).1.scanResults.map PortRec.port =
      (List.range ((e - s).toNat + 1)).map (fun i : ℕ => s + (i : ℤ)) ∧
    (run initState (canonScan s e bs)).1.scanResults.all
      (fun r => r.status == "open" || r.status == "closed") = true ∧
    (run initState (canonScan s e bs)).1.isScanning = false ∧
    (0, Msg.scanComplete (run initState (canonScan s e bs)).1.scanResults) ∈
      (run initState (canonScan s e bs)).2 := by
  rcases bs with _ | ⟨b, bs'⟩
  · simp at hlen
  · have hlen' : bs'.length = (e - s).toNat := by simpa using hlen
    have hq : buildQueue s e = s :: (consecPairs (s + 1) bs').map Prod.fst := by
      have h := buildQueue_consec s e b bs' hse hlen'
      simpa [consecPairs] using h
    have hks := scan_kickoff s e ((consecPairs (s + 1) bs').map Prod.fst) hs hq
    have hloop := canonLoop bs' b s [] "" (by intro r hr; simp at hr)
    have hsplit : canonScan s e (b :: bs') =
        [Action.connect none "", Action.request s e] ++
          (consecPairs s (b :: bs')).flatMap (fun x => behActs x.1 x.2) := rfl
    rw [hsplit, run_append, hks]
    simp only [hloop]
    refine ⟨?_, ?_, ?_, ?_⟩
    · simp only [doneState, List.nil_append, map_port_recOf, consecPairs_map_fst]
      rw [show (b :: bs').length = (e - s).toNat + 1 from by simpa using hlen]
    · simp only [doneState, List.nil_append, List.all_eq_true]
      intro r hr
      rcases List.mem_map.mp hr with ⟨x, _, hx⟩
      subst hx
      cases h : x.2.probeSuccess <;> simp [recOf, h]
    · simp [doneState]
    · simp only [doneState, List.nil_append]
      apply List.mem_append_right
      exact scanComplete_mem_canonSends bs' b s []

/-- Witness for C1: the canonical run over `[1, 2]` with one open and
one closed port. -/
theorem c1_witness :
    (run initState (canonScan 1 2 [⟨true, true, ""⟩, ⟨false, false, "refused"⟩])).1.scanResults.map
        PortRec.port =
      (List.range ((((2 : ℤ) - 1).toNat) + 1)).map (fun i : ℕ => 1 + (i : ℤ)) ∧
    (run initState (canonScan 1 2 [⟨true, true, ""⟩, ⟨false, false, "refused"⟩])).1.scanResults.all
      (fun r => r.status == "open" || r.status == "closed") = true ∧
    (run initState (canonScan 1 2 [⟨true, true, ""⟩, ⟨false, false, "refused"⟩])).1.isScanning
      = false ∧
    (0, Msg.scanComplete
        (run initState (canonScan 1 2 [⟨true, true, ""⟩, ⟨false, false, "refused"⟩])).1.scanResults) ∈
      (run initState (canonScan 1 2 [⟨true, true, ""⟩, ⟨false, false, "refused"⟩])).2 :=
  c1_results_complete 1 2 [⟨true, true, ""⟩, ⟨false, false, "refused"⟩]
    (by decide) (by decide) (by decide)

/-- Counterexample for C7 (the claim quantifies over every execution):
on `c7Trace` - a scan of `[1,1]` interrupted mid-probe by channel
closure, followed by a reconnect and a new scan of `[1,3]` whose results
list again holds port 1 - the stale continuation of the first run races
the new run and `startListener 3` is transmitted although
`stopListener 2` (and port 2's `portScanned`) never were: the per-port
sequence is not strictly serialized in every execution. -/
theorem c7_counterexample : seqOk 1 [] (run initState c7Trace).2 = false := by decide

/-- Helper for C7 (amended): the canonical per-port transmissions pass
the strict-serialization check regardless of the already-seen trace -
each `startListener (p+1)` is immediately preceded by port `p`'s
`stopListener` and `portScanned` within the same block. -/
theorem seqOk_canonSends : ∀ (bs : List PortBeh) (b : PortBeh) (p : ℤ)
    (done : List PortRec) (s0 : ℤ) (seen : List (ℕ × Msg)),
    seqOk s0 seen (canonSends done (consecPairs p (b :: bs))) = true := by
  intro bs
  induction bs with
  | nil => intro b p done s0 seen; simp [consecPairs, canonSends, seqOk]
  | cons b2 t ih =>
    intro b p done s0 seen
    rw [show consecPairs p (b :: b2 :: t) =
      (p, b) :: (p + 1, b2) :: consecPairs (p + 1 + 1) t from rfl]
    rw [show canonSends done ((p, b) :: (p + 1, b2) :: consecPairs (p + 1 + 1) t) =
      (0, Msg.stopListener p) ::
      (0, Msg.portScanned p b.probeSuccess (errField b)
        ((p + 1, b2) :: consecPairs (p + 1 + 1) t).length) ::
      (0, Msg.startListener (p + 1)) ::
      canonSends (done ++ [recOf p b]) ((p + 1, b2) :: consecPairs (p + 1 + 1) t) from rfl]
    have h := ih b2 (p + 1) (done ++ [recOf p b]) s0
      (seen ++ [(0, Msg.stopListener p),
        (0, Msg.portScanned p b.probeSuccess (errField b)
          ((p + 1, b2) :: consecPairs (p + 1 + 1) t).length),
        (0, Msg.startListener (p + 1))])
    rw [show consecPairs (p + 1) (b2 :: t) =
      (p + 1, b2) :: consecPairs (p + 1 + 1) t from rfl] at h
    generalize hL : canonSends (done ++ [recOf p b])
      ((p + 1, b2) :: consecPairs (p + 1 + 1) t) = L at h ⊢
    simp only [seqOk, seenHasStop, seenHasScanned, List.any_append, List.any_cons,
      List.any_nil, add_sub_cancel_right, beq_self_eq_true, Bool.or_true, Bool.true_or,
      Bool.true_and, Bool.or_false, Bool.false_or]
    simpa [List.append_assoc] using h

/-- C7 (amended): provided the agent session stays attached for the
whole run and the agent acknowledges each port (the canonical attached
run - the counterexample shows the claim fails when the channel is
replaced mid-run), port `N+1`'s `startListener` is never transmitted
before port `N`'s `stopListener` and `portScanned` have been. -/
theorem c7_strict_serialization (s e : ℤ) (bs : List PortBeh)
    (hs : 1 ≤ s) (hse : s ≤ e) (hlen : bs.length = (e - s).toNat + 1) :
    seqOk s [] (run initState (canonScan s e bs)).2 = true := by
  rcases bs with _ | ⟨b, bs'⟩
  · simp at hlen
  · have hlen' : bs'.length = (e - s).toNat := by simpa using hlen
    have hq : buildQueue s e = s :: (consecPairs (s + 1) bs').map Prod.fst := by
      have h := buildQueue_consec s e b bs' hse hlen'
      simpa [consecPairs] using h
    have hks := scan_kickoff s e ((consecPairs (s + 1) bs').map Prod.fst) hs hq
    have hsplit : canonScan s e (b :: bs') =
        [Action.connect none "", Action.request s e] ++
          (consecPairs s (b :: bs')).flatMap (fun x => behActs x.1 x.2) := rfl
    rw [hsplit, run_append, hks]
    rw [canonLoop bs' b s [] "" (by intro r hr; simp at hr)]
    have h := seqOk_canonSends bs' b s [] s
      [(0, Msg.welcome ""), (0, Msg.scanStarted s e), (0, Msg.startListener s)]
    generalize hL : canonSends [] (consecPairs s (b :: bs')) = L at h ⊢
    simp only [List.cons_append, List.nil_append, seqOk, beq_self_eq_true, Bool.true_or,
      Bool.true_and]
    simpa using h

/-- Witness for C7 (amended): the canonical run over `[1, 2]`. -/
theorem c7_witness :
    seqOk 1 []
      (run initState (canonScan 1 2 [⟨true, false, "timeout"⟩, ⟨true, true, ""⟩])).2 = true :=
  c7_strict_serialization 1 2 [⟨true, false, "timeout"⟩, ⟨true, true, ""⟩]
    (by decide) (by decide) (by decide)

/-- Every transmission of `sendToClient` targets an open channel. -/
theorem sendToClient_sub (st : SrvState) (m : Msg) :
    ∀ x ∈ sendToClient st m, x.1 ∈ st.openChans := by
  intro x hx
  rcases hc : st.connectedClient with _ | c
  · simp [sendToClient, hc] at hx
  · by_cases ho : c ∈ st.openChans
    · simp only [sendToClient, hc, if_pos ho, List.mem_singleton] at hx
      subst hx
      exact ho
    · simp [sendToClient, hc, ho] at hx

/-- The synchronous prefix of `processNextPort` does not touch the
channel bookkeeping, and its transmissions target open channels. -/
theorem processNextPort_frame (st : SrvState) :
    (processNextPort st).1.openChans = st.openChans ∧
    (processNextPort st).1.connectedClient = st.connectedClient ∧
    (processNextPort st).1.nextCh = st.nextCh ∧
    ∀ x ∈ (processNextPort st).2, x.1 ∈ st.openChans := by
  rcases hq : st.scanQueue with _ | ⟨p, rest⟩
  · have he : processNextPort st =
        ({ st with isScanning := false },
         sendToClient { st with isScanning := false }
           (Msg.scanComplete st.scanResults)) := by
      simp [processNextPort, hq]
    rw [he]
    refine ⟨rfl, rfl, rfl, ?_⟩
    intro x hx
    have h := sendToClient_sub _ _ x hx
    simpa using h
  · rcases hc : st.connectedClient with _ | c
    · have he : processNextPort st =
          ({ st with scanQueue := rest,
                     scanResults := st.scanResults ++ [{ port := p, status := "pending" }],
                     crashed := true },
           sendToClient
             { st with scanQueue := rest,
                       scanResults := st.scanResults ++ [{ port := p, status := "pending" }] }
             (Msg.startListener p)) := by
        simp [processNextPort, hq, hc]
      rw [he]
      refine ⟨rfl, hc, rfl, ?_⟩
      intro x hx
      have h := sendToClient_sub _ _ x hx
      simpa using h
    · have he : processNextPort st =
          ({ st with scanQueue := rest,
                     scanResults := st.scanResults ++ [{ port := p, status := "pending" }],
                     tasks := st.tasks ++ [OrcTask.awaitAck c p] },
           sendToClient
             { st with scanQueue := rest,
                       scanResults := st.scanResults ++ [{ port := p, status := "pending" }] }
             (Msg.startListener p)) := by
        simp [processNextPort, hq, hc]
      rw [he]
      refine ⟨rfl, hc, rfl, ?_⟩
      intro x hx
      have h := sendToClient_sub _ _ x hx
      simpa using h

/-- The probe continuation does not touch the channel bookkeeping, and
its transmissions target open channels. -/
theorem resumeAfterProbe_frame (st : SrvState) (i : ℕ) (p : ℤ) (success : Bool)
    (err : String) :
    (resumeAfterProbe st i p success err).1.openChans = st.openChans ∧
    (resumeAfterProbe st i p success err).1.connectedClient = st.connectedClient ∧
    (resumeAfterProbe st i p success err).1.nextCh = st.nextCh ∧
    ∀ x ∈ (resumeAfterProbe st i p success err).2, x.1 ∈ st.openChans := by
  rcases hf : scanFindIndex p st.scanResults with _ | idx
  · simp [resumeAfterProbe, hf]
  · refine ⟨?_, ?_, ?_, ?_⟩
    all_goals simp only [resumeAfterProbe, hf]
    all_goals try rfl
    intro x hx
    rcases List.mem_append.mp (by simpa using hx) with hx2 | hx2 <;>
      { have h := sendToClient_sub _ _ x hx2; simpa using h }

/-- The message handler does not touch the channel bookkeeping and sends
nothing. -/
theorem handleMsg_frame (st : SrvState) (ch : ℕ) (m : InMsg) :
    (handleMsg st ch m).1.openChans = st.openChans ∧
    (handleMsg st ch m).1.connectedClient = st.connectedClient ∧
    (handleMsg st ch m).1.nextCh = st.nextCh ∧
    (handleMsg st ch m).2 = [] := by
  rcases hc : st.connectedClient with _ | c
  · simp only [handleMsg, hc]
    split_ifs
    all_goals simp [hc]
  · simp [handleMsg, hc]

/-- The `/scan` handler does not touch the channel bookkeeping, and its
transmissions target open channels. -/
theorem handleScanRequest_frame (st : SrvState) (s e : ℤ) :
    (handleScanRequest st s e).1.openChans = st.openChans ∧
    (handleScanRequest st s e).1.connectedClient = st.connectedClient ∧
    (handleScanRequest st s e).1.nextCh = st.nextCh ∧
    ∀ x ∈ (handleScanRequest st s e).2.1, x.1 ∈ st.openChans := by
  rcases hc : st.connectedClient with _ | c
  · simp [handleScanRequest, hc]
  · by_cases hb : st.isScanning
    · simp [handleScanRequest, hc, hb]
    · by_cases hr : (s < 1 || e < s) = true
      · simp [handleScanRequest, hc, hb, hr]
      · have key : handleScanRequest st s e =
            ((processNextPort
                { st with scanQueue := buildQueue s e, scanResults := [], isScanning := true }).1,
              sendToClient
                { st with scanQueue := buildQueue s e, scanResults := [], isScanning := true }
                (Msg.scanStarted s e) ++
                (processNextPort
                  { st with scanQueue := buildQueue s e, scanResults := [], isScanning := true }).2,
              ScanResp.started
                (processNextPort
                  { st with scanQueue := buildQueue s e, scanResults := [], isScanning := true }).1.scanQueue.length) := by
          simp [handleScanRequest, hc, hb, hr]
        rw [key]
        have hpf := processNextPort_frame
          { st with scanQueue := buildQueue s e, scanResults := [], isScanning := true }
        refine ⟨hpf.1, ?_, hpf.2.2.1, ?_⟩
        · rw [hpf.2.1]
          exact hc
        · intro x hx
          rcases List.mem_append.mp hx with hx2 | hx2
          · have h := sendToClient_sub _ _ x hx2
            simpa using h
          · exact hpf.2.2.2 x hx2

/-- A state whose channel bookkeeping agrees with a good state is good. -/
theorem good_of_frame (st st' : SrvState) (h1 : st'.openChans = st.openChans)
    (h2 : st'.connectedClient = st.connectedClient) (h3 : st'.nextCh = st.nextCh)
    (hg : GoodState st) : GoodState st' := by
  constructor
  · intro c hc
    rw [h2] at hc
    rw [h1]
    exact hg.1 c hc
  · intro c hc
    rw [h1] at hc
    rw [h3]
    exact hg.2 c hc

/-- Unfolding of the timer step on a live process. -/
theorem step_timer_eq (st : SrvState) (i : ℕ) (hcr : ¬ st.crashed = true)
    (hti : st.tasks[i]? = some OrcTask.timer) :
    step st (Action.timerFire i) =
      processNextPort { st with tasks := st.tasks.eraseIdx i } := by
  simp [step, hcr, hti]

/-- Every step preserves the reachability invariant. -/
theorem step_good (st : SrvState) (a : Action) (hg : GoodState st) :
    GoodState (step st a).1 := by
  by_cases hcr : st.crashed = true
  · simpa [step, hcr] using hg
  · cases a with
    | connect fwd remote =>
      simp only [step, hcr, if_false, handleConnect, Bool.false_eq_true, GoodState]
      constructor
      · intro c hc
        simp only [Option.some.injEq] at hc
        subst hc
        simp
      · intro c hc
        simp only [List.mem_append, List.mem_singleton] at hc
        rcases hc with hc | hc
        · have := hg.2 c hc
          omega
        · omega
    | close ch =>
      by_cases hm : ch ∈ st.openChans
      · simp only [step, hcr, if_false, hm, if_true, handleClose, Bool.false_eq_true,
          GoodState]
        constructor
        · intro c hc
          simp at hc
        · intro c hc
          have := List.mem_of_mem_filter hc
          exact hg.2 c this
      · simpa [step, hcr, hm] using hg
    | request s e =>
      have hf := handleScanRequest_frame st s e
      simp only [step, hcr, if_false, Bool.false_eq_true]
      exact good_of_frame st _ hf.1 hf.2.1 hf.2.2.1 hg
    | msg ch m =>
      by_cases hm : ch ∈ st.openChans
      · have hf := handleMsg_frame st ch m
        simp only [step, hcr, if_false, hm, if_true, Bool.false_eq_true]
        exact good_of_frame st _ hf.1 hf.2.1 hf.2.2.1 hg
      · simpa [step, hcr, hm] using hg
    | probeDone i success err =>
      rcases hti : st.tasks[i]? with _ | t
      · simpa [step, hcr, hti] using hg
      · cases t with
        | awaitAck c p => simpa [step, hcr, hti] using hg
        | probing p =>
          have hf := resumeAfterProbe_frame st i p success err
          simp only [step, hcr, if_false, hti, Bool.false_eq_true]
          exact good_of_frame st _ hf.1 hf.2.1 hf.2.2.1 hg
        | timer => simpa [step, hcr, hti] using hg
    | timerFire i =>
      rcases hti : st.tasks[i]? with _ | t
      · simpa [step, hcr, hti] using hg
      · cases t with
        | awaitAck c p => simpa [step, hcr, hti] using hg
        | probing p => simpa [step, hcr, hti] using hg
        | timer =>
          have hf := processNextPort_frame { st with tasks := st.tasks.eraseIdx i }
          rw [step_timer_eq st i hcr hti]
          exact good_of_frame st _ hf.1 hf.2.1 hf.2.2.1 hg

/-- A closed channel stays closed (fresh ids are never reused), and the
id supply never shrinks. -/
theorem step_closed (st : SrvState) (a : Action) (c : ℕ)
    (h1 : c ∉ st.openChans) (h2 : c < st.nextCh) :
    c ∉ (step st a).1.openChans ∧ c < (step st a).1.nextCh := by
  by_cases hcr : st.crashed = true
  · simp [step, hcr, h1, h2]
  · cases a with
    | connect fwd remote =>
      simp only [step, hcr, if_false, handleConnect, Bool.false_eq_true]
      constructor
      · intro hc
        rcases List.mem_append.mp hc with hc | hc
        · exact h1 hc
        · simp only [List.mem_singleton] at hc
          omega
      · show c < st.nextCh + 1
        omega
    | close ch =>
      by_cases hm : ch ∈ st.openChans
      · simp only [step, hcr, if_false, hm, if_true, handleClose, Bool.false_eq_true]
        refine ⟨fun hc => h1 (List.mem_of_mem_filter hc), h2⟩
      · simp [step, hcr, hm, h1, h2]
    | request s e =>
      have hf := handleScanRequest_frame st s e
      simp only [step, hcr, if_false, Bool.false_eq_true]
      rw [hf.1, hf.2.2.1]
      exact ⟨h1, h2⟩
    | msg ch m =>
      by_cases hm : ch ∈ st.openChans
      · have hf := handleMsg_frame st ch m
        simp only [step, hcr, if_false, hm, if_true, Bool.false_eq_true]
        rw [hf.1, hf.2.2.1]
        exact ⟨h1, h2⟩
      · simp [step, hcr, hm, h1, h2]
    | probeDone i success err =>
      rcases hti : st.tasks[i]? with _ | t
      · simp [step, hcr, hti, h1, h2]
      · cases t with
        | awaitAck c2 p => simp [step, hcr, hti, h1, h2]
        | probing p =>
          have hf := resumeAfterProbe_frame st i p success err
          simp only [step, hcr, if_false, hti, Bool.false_eq_true]
          rw [hf.1, hf.2.2.1]
          exact ⟨h1, h2⟩
        | timer => simp [step, hcr, hti, h1, h2]
    | timerFire i =>
      rcases hti : st.tasks[i]? with _ | t
      · simp [step, hcr, hti, h1, h2]
      · cases t with
        | awaitAck c2 p => simp [step, hcr, hti, h1, h2]
        | probing p => simp [step, hcr, hti, h1, h2]
        | timer =>
          have hf := processNextPort_frame { st with tasks := st.tasks.eraseIdx i }
          rw [step_timer_eq st i hcr hti]
          constructor
          · intro hc
            rw [hf.1] at hc
            exact h1 hc
          · rw [hf.2.2.1]
            exact h2

/-- Every transmission of a step targets a channel open after the
step. -/
theorem step_sends (st : SrvState) (a : Action) :
    ∀ x ∈ (step st a).2, x.1 ∈ (step st a).1.openChans := by
  intro x hx
  by_cases hcr : st.crashed = true
  · simp [step, hcr] at hx
  · cases a with
    | connect fwd remote =>
      simp only [step, hcr, if_false, handleConnect, List.mem_singleton,
        Bool.false_eq_true] at hx ⊢
      subst hx
      simp
    | close ch =>
      by_cases hm : ch ∈ st.openChans <;> simp [step, hcr, hm, handleClose] at hx
    | request s e =>
      have hf := handleScanRequest_frame st s e
      simp only [step, hcr, if_false, Bool.false_eq_true] at hx ⊢
      rw [hf.1]
      exact hf.2.2.2 x hx
    | msg ch m =>
      by_cases hm : ch ∈ st.openChans
      · have hf := handleMsg_frame st ch m
        simp only [step, hcr, if_false, hm, if_true, Bool.false_eq_true, hf.2.2.2] at hx
        simp at hx
      · simp [step, hcr, hm] at hx
    | probeDone i success err =>
      rcases hti : st.tasks[i]? with _ | t
      · simp [step, hcr, hti] at hx
      · cases t with
        | awaitAck c2 p => simp [step, hcr, hti] at hx
        | probing p =>
          have hf := resumeAfterProbe_frame st i p success err
          simp only [step, hcr, if_false, hti, Bool.false_eq_true] at hx ⊢
          rw [hf.1]
          exact hf.2.2.2 x hx
        | timer => simp [step, hcr, hti] at hx
    | timerFire i =>
      rcases hti : st.tasks[i]? with _ | t
      · simp [step, hcr, hti] at hx
      · cases t with
        | awaitAck c2 p => simp [step, hcr, hti] at hx
        | probing p => simp [step, hcr, hti] at hx
        | timer =>
          have hf := processNextPort_frame { st with tasks := st.tasks.eraseIdx i }
          rw [step_timer_eq st i hcr hti] at hx ⊢
          rw [hf.1]
          exact hf.2.2.2 x hx

/-- The invariant holds along every run. -/
theorem run_good : ∀ (as : List Action) (st : SrvState),
    GoodState st → GoodState (run st as).1 := by
  intro as
  induction as with
  | nil => intro st hg; simpa [run] using hg
  | cons a t ih =>
    intro st hg
    have hrw : (run st (a :: t)).1 = (run (step st a).1 t).1 := rfl
    rw [hrw]
    exact ih (step st a).1 (step_good st a hg)

/-- The initial state satisfies the invariant. -/
theorem good_init : GoodState initState := by
  constructor <;> simp [initState]

/-- After a channel is closed, no continuation of the run ever transmits
on it. -/
theorem run_avoid_closed : ∀ (as : List Action) (st : SrvState) (c : ℕ),
    GoodState st → c ∉ st.openChans → c < st.nextCh →
    ((run st as).2.all (fun x => x.1 != c)) = true := by
  intro as
  induction as with
  | nil => intro st c _ _ _; simp [run]
  | cons a t ih =>
    intro st c hg h1 h2
    have hrw : (run st (a :: t)).2 = (step st a).2 ++ (run (step st a).1 t).2 := rfl
    rw [hrw, List.all_append, Bool.and_eq_true]
    have hcl := step_closed st a c h1 h2
    constructor
    · rw [List.all_eq_true]
      intro x hx
      have hx1 := step_sends st a x hx
      simp only [bne_iff_ne, ne_eq]
      intro hxc
      exact hcl.1 (hxc ▸ hx1)
    · exact ih (step st a).1 c (step_good st a hg) hcl.1 hcl.2

/-- C5: when the agent channel closes mid-scan (on a live, uncrashed
process), the close handler immediately clears the busy flag and
discards the remaining queue, and in every continuation of the run no
message whatsoever - no `startListener`, no `stopListener`, no event -
is ever transmitted on the closed channel (sends only target the
currently attached open channel, and a closed channel id is never
reattached). -/
theorem c5_close_aborts (pre : List Action) (c : ℕ) (post : List Action)
    (hcr : (run initState pre).1.crashed = false)
    (hc : c ∈ (run initState pre).1.openChans) :
    (step (run initState pre).1 (Action.close c)).1.isScanning = false ∧
    (step (run initState pre).1 (Action.close c)).1.scanQueue = [] ∧
    ((run (step (run initState pre).1 (Action.close c)).1 post).2.all
      (fun x => x.1 != c)) = true := by
  have hg : GoodState (run initState pre).1 := run_good pre initState good_init
  have hstep : step (run initState pre).1 (Action.close c) =
      handleClose (run initState pre).1 c := by
    simp [step, hcr, hc]
  refine ⟨by rw [hstep]; rfl, by rw [hstep]; rfl, ?_⟩
  have hg2 : GoodState (step (run initState pre).1 (Action.close c)).1 :=
    step_good _ _ hg
  have h1 : c ∉ (step (run initState pre).1 (Action.close c)).1.openChans := by
    rw [hstep]
    intro hmem
    have := List.mem_filter.mp hmem
    simp at this
  have h2 : c < (step (run initState pre).1 (Action.close c)).1.nextCh := by
    rw [hstep]
    exact hg.2 c hc
  exact run_avoid_closed post _ c hg2 h1 h2

/-- Witness for C5: the scan of `[1, 2]` is interrupted by closing
channel 0; the pending timer fires, a new channel attaches and a new
scan starts, and still nothing is transmitted on channel 0. -/
theorem c5_witness :
    (step (run initState [Action.connect none "", Action.request 1 2]).1
      (Action.close 0)).1.isScanning = false ∧
    (step (run initState [Action.connect none "", Action.request 1 2]).1
      (Action.close 0)).1.scanQueue = [] ∧
    ((run (step (run initState [Action.connect none "", Action.request 1 2]).1
        (Action.close 0)).1
      [Action.timerFire 0, Action.connect none "", Action.request 5 5,
       Action.msg 1 (InMsg.listening 5)]).2.all (fun x => x.1 != 0)) = true :=
  c5_close_aborts [Action.connect none "", Action.request 1 2] 0
    [Action.timerFire 0, Action.connect none "", Action.request 5 5,
     Action.msg 1 (InMsg.listening 5)] (by decide) (by decide)

end BulkScan
